import Mathlib

/-!
Verification development for the chart-data core of this repository
(`pptx/chart/data.py`, `pptx/chart/xlsx.py`, `pptx/oxml/chart/series.py`).

The Python code is shallowly embedded: pure value-producing methods become
Lean functions on the same data, XML text produced by string formatting is
built by the same concatenations, the mutable Python list aliased between
`ChartData` and its `_SeriesData` objects is modelled by a small explicit
store of list objects, and operations that can raise become `Option` /
`Except` valued functions.  External collaborators (`xlsxwriter` utility
functions, `xml.sax.saxutils.escape`, the required-child descriptor of the
XML binding layer) are modelled from their documented behaviour where the
embedded code calls them.
-/

/-! ## Generic string helpers used by the statements -/

/-- Concatenation of a list of strings, used on the specification side to
state what the fold-style string builders in the code produce. -/
def strConcat (l : List String) : String :=
  l.foldr (fun a b => a ++ b) ""

theorem strConcat_nil : strConcat [] = "" := rfl

theorem strConcat_cons (s : String) (l : List String) :
    strConcat (s :: l) = s ++ strConcat l := rfl

/-- A left fold that appends a rendered fragment for every element equals the
accumulator followed by the concatenation of all fragments. -/
theorem foldl_append_eq_strConcat {α : Type} (f : α → String) :
    ∀ (l : List α) (acc : String),
      l.foldl (fun s a => s ++ f a) acc = acc ++ strConcat (l.map f) := by
  intro l
  induction l with
  | nil => intro acc; simp [strConcat]
  | cons x xs ih =>
      intro acc
      simp only [List.foldl_cons, List.map_cons, strConcat_cons]
      rw [ih, String.append_assoc]

/-- A left fold that appends a fragment only for elements satisfying `p`
equals the accumulator followed by the fragments of the filtered list. -/
theorem foldl_filter_append_eq_strConcat {α : Type} (p : α → Prop) [DecidablePred p]
    (f : α → String) :
    ∀ (l : List α) (acc : String),
      l.foldl (fun s a => if p a then s ++ f a else s) acc
        = acc ++ strConcat ((l.filter fun a => decide (p a)).map f) := by
  intro l
  induction l with
  | nil => intro acc; simp [strConcat]
  | cons x xs ih =>
      intro acc
      by_cases h : p x
      · rw [List.foldl_cons, if_pos h, ih]
        have : List.filter (fun a => decide (p a)) (x :: xs)
            = x :: List.filter (fun a => decide (p a)) xs := by
          simp [List.filter_cons, h]
        rw [this]
        simp only [List.map_cons, strConcat_cons]
        rw [String.append_assoc]
      · rw [List.foldl_cons, if_neg h, ih]
        have : List.filter (fun a => decide (p a)) (x :: xs)
            = List.filter (fun a => decide (p a)) xs := by
          simp [List.filter_cons, h]
        rw [this]

/-! ## Column naming

`pptx/chart/data.py` computes worksheet column letters in two ways:

* the plain `_SeriesData._col_letter` returns `chr(ord('B') + series_idx)`,
  a single character;
* `_SeriesDataMoreDetails._col_letter` returns
  `xl_col_to_name(max(1, len(categories)) + series_idx)`, delegating to the
  external `xlsxwriter.utility.xl_col_to_name`.
-/

/-- Loop body of `xlsxwriter.utility.xl_col_to_name` (external collaborator,
modelled from its documented behaviour): repeatedly take the one-based
remainder modulo 26 (with `0` standing for `26`), prepend the corresponding
letter, and continue with `(n - 1) / 26`. -/
def xlColAux (colNum : Nat) (acc : String) : String :=
  if h : colNum = 0 then acc
  else
    let remainder := colNum % 26
    let r := if remainder = 0 then 26 else remainder
    xlColAux ((colNum - 1) / 26) (String.singleton (Char.ofNat (64 + r)) ++ acc)
termination_by colNum
decreasing_by
  exact Nat.lt_of_le_of_lt (Nat.div_le_self _ _) (Nat.sub_lt (Nat.pos_of_ne_zero h) Nat.one_pos)

/-- Model of `xlsxwriter.utility.xl_col_to_name` on a zero-based column
number (the `col_abs` flag is not used by the embedded call sites). -/
def xl_col_to_name (col : Nat) : String :=
  xlColAux (col + 1) ""

/-- Column naming exactly as the specification words it: alphabetic,
unbounded, no "zero" digit, with column 0 named "A", 25 named "Z" and
26 named "AA".  This definition follows the specification text, not the
source, and is compared against the source's naming below. -/
def specColName (n : Nat) : String :=
  if _h : n < 26 then String.singleton (Char.ofNat (65 + n))
  else specColName (n / 26 - 1) ++ String.singleton (Char.ofNat (65 + n % 26))
termination_by n
decreasing_by
  exact Nat.lt_of_le_of_lt (Nat.sub_le _ _) (Nat.div_lt_self (by omega) (by omega))

theorem xlColAux_eq_specColName :
    ∀ (colNum : Nat), 0 < colNum → ∀ acc : String,
      xlColAux colNum acc = specColName (colNum - 1) ++ acc := by
  intro colNum
  induction colNum using Nat.strong_induction_on with
  | _ colNum ih =>
    intro hpos acc
    rw [xlColAux]
    have hne : ¬ colNum = 0 := Nat.pos_iff_ne_zero.mp hpos
    simp only [hne, dite_false]
    by_cases hle : colNum ≤ 26
    · have hdiv0 : (colNum - 1) / 26 = 0 := Nat.div_eq_of_lt (by omega)
      rw [hdiv0, xlColAux]
      simp only [dite_true]
      have hlt : colNum - 1 < 26 := by omega
      rw [specColName]
      simp only [hlt, dite_true]
      have hchar : (if colNum % 26 = 0 then 26 else colNum % 26) = colNum - 1 + 1 := by
        by_cases hmod : colNum % 26 = 0
        · rw [if_pos hmod]; omega
        · rw [if_neg hmod]; omega
      rw [hchar]
      have : 64 + (colNum - 1 + 1) = 65 + (colNum - 1) := by omega
      rw [this]
    · have hgt : 26 < colNum := by omega
      have hdivpos : 0 < (colNum - 1) / 26 := by
        have : 26 ≤ colNum - 1 := by omega
        exact Nat.div_pos this (by omega)
      have hdivlt : (colNum - 1) / 26 < colNum :=
        Nat.lt_of_le_of_lt (Nat.div_le_self _ _) (Nat.sub_lt (by omega) Nat.one_pos)
      rw [ih _ hdivlt hdivpos]
      have hspec : specColName (colNum - 1)
          = specColName ((colNum - 1) / 26 - 1)
            ++ String.singleton (Char.ofNat (65 + (colNum - 1) % 26)) := by
        rw [specColName]
        have : ¬ (colNum - 1 < 26) := by omega
        simp only [this, dite_false]
      rw [hspec, String.append_assoc]
      have hdig : (if colNum % 26 = 0 then 26 else colNum % 26) = (colNum - 1) % 26 + 1 := by
        by_cases hmod : colNum % 26 = 0
        · rw [if_pos hmod]; omega
        · rw [if_neg hmod]; omega
      rw [hdig]
      have : 64 + ((colNum - 1) % 26 + 1) = 65 + (colNum - 1) % 26 := by omega
      rw [this]

/-- The external naming routine agrees with the specification's description
of the column-name numeral system on every column number. -/
theorem xl_col_to_name_eq_specColName (col : Nat) :
    xl_col_to_name col = specColName col := by
  unfold xl_col_to_name
  rw [xlColAux_eq_specColName (col + 1) (Nat.succ_pos col) ""]
  simp [String.append_empty]

/-- Model of `_SeriesData._col_letter`: the single character
`chr(ord('B') + series_idx)`. -/
def colLetterSimple (series_idx : Nat) : String :=
  String.singleton (Char.ofNat (66 + series_idx))

/-- Model of `_SeriesDataMoreDetails._col_letter`:
`xl_col_to_name(max(1, len(self._categories)) + self._series_idx)` where the
categories of the detailed variant are a sequence of levels of
`(index, label)` pairs. -/
def colLetterMore (categories : List (List (Nat × String))) (series_idx : Nat) : String :=
  xl_col_to_name (max 1 categories.length + series_idx)

/-- Parse an alphabetic column name back to a zero-based column number.
This is the specification-side reading of a column token appearing in a
reference formula such as `Sheet1!$AA$2`: each letter is a base-26 digit
with A standing for 1. -/
def colNameToNum (s : String) : Nat :=
  s.data.foldl (fun acc c => acc * 26 + (c.toNat - 64)) 0 - 1

theorem char_ofNat_letter_toNat (d : Nat) (h : d < 26) :
    (Char.ofNat (65 + d)).toNat = 65 + d := by
  interval_cases d <;> decide

theorem data_singleton (c : Char) : (String.singleton c).data = [c] := rfl

theorem specColName_foldl (n : Nat) :
    (specColName n).data.foldl (fun acc c => acc * 26 + (c.toNat - 64)) 0 = n + 1 := by
  induction n using Nat.strong_induction_on with
  | _ n ih =>
    by_cases h26 : n < 26
    · rw [specColName, dif_pos h26, data_singleton]
      simp only [List.foldl_cons, List.foldl_nil]
      rw [char_ofNat_letter_toNat n h26]
      omega
    · rw [specColName, dif_neg h26]
      have hlt : n / 26 - 1 < n :=
        Nat.lt_of_le_of_lt (Nat.sub_le _ _) (Nat.div_lt_self (by omega) (by omega))
      rw [String.data_append, List.foldl_append, ih _ hlt, data_singleton]
      simp only [List.foldl_cons, List.foldl_nil]
      rw [char_ofNat_letter_toNat (n % 26) (Nat.mod_lt _ (by omega))]
      have hdvd := Nat.div_add_mod n 26
      have hdivpos : 0 < n / 26 := Nat.div_pos (by omega) (by omega)
      omega

/-- Parsing a column name produced by the specification's numbering recovers
the column number. -/
theorem colNameToNum_specColName (n : Nat) : colNameToNum (specColName n) = n := by
  unfold colNameToNum
  rw [specColName_foldl]
  omega

/-- Parsing a column name produced by the external `xl_col_to_name` recovers
the column number. -/
theorem colNameToNum_xl_col_to_name (n : Nat) : colNameToNum (xl_col_to_name n) = n := by
  rw [xl_col_to_name_eq_specColName, colNameToNum_specColName]

/-- C4 counterexample: the claim predicts that the data column of a Simple
series with index 25 (category width 1) is the alphabetic name of column
26, i.e. "AA"; the code's `chr(ord('B') + series_idx)` yields the single
character after Z instead. -/
theorem c4_simple_col_at_25_not_base26 :
    colLetterSimple 25 ≠ specColName (1 + 25) := by
  have h : specColName (1 + 25) = "AA" := by
    rw [specColName, dif_neg (by omega)]
    rw [specColName, dif_pos (by omega)]
    decide
  rw [h]
  decide

/-- C4 (amended): the Detailed variant's data column is the alphabetic
(base-26, no zero digit) name of zero-based column `max 1 width + index`
for every index and category width, and the Simple variant's single-letter
column agrees with that numbering exactly for indices up to 24; in
particular Simple index 0 maps to B and 1 to C, and Detailed width 2 with
index 24 maps to AA. -/
theorem colLetter_matches_base26 :
    (∀ (cats : List (List (Nat × String))) (i : Nat),
        colLetterMore cats i = specColName (max 1 cats.length + i))
    ∧ (∀ i : Nat, i ≤ 24 → colLetterSimple i = specColName (1 + i))
    ∧ colLetterMore [[], []] 24 = "AA"
    ∧ colLetterSimple 0 = "B" ∧ colLetterSimple 1 = "C" := by
  refine ⟨?_, ?_, ?_, ?_, ?_⟩
  · intro cats i
    exact xl_col_to_name_eq_specColName _
  · intro i hi
    rw [specColName, dif_pos (by omega : 1 + i < 26)]
    unfold colLetterSimple
    have h : 66 + i = 65 + (1 + i) := by omega
    rw [h]
  · show xl_col_to_name (max 1 2 + 24) = "AA"
    simp [xl_col_to_name, xlColAux]
    decide
  · decide
  · decide

/-- C4 witness: the amended theorem applied at the concrete index 3. -/
theorem colLetter_matches_base26_witness :
    colLetterSimple 3 = specColName (1 + 3) :=
  colLetter_matches_base26.2.1 3 (by decide)

/-! ## XML text fragments

The serializer in `pptx/chart/data.py` produces XML as text, by filling
string templates and by appending one `<c:pt>` fragment per point inside a
loop.  The fragments below are those template pieces, concatenated exactly
as the `format` calls and `+=` loops of the source concatenate them.
-/

/-- Model of `xml.sax.saxutils.escape` with its default entity table
(external stdlib collaborator): ampersand, less-than and greater-than are
replaced by their entities; every other character, including both quote
characters, passes through unchanged. -/
def escChar (c : Char) : String :=
  if c = '&' then "&amp;"
  else if c = '<' then "&lt;"
  else if c = '>' then "&gt;"
  else String.singleton c

/-- Escape applied to a whole string, character by character. -/
def pyEscape (s : String) : String :=
  strConcat (s.data.map escChar)

/-- Escaping for all five standard XML special characters, as the
specification demands it.  This definition follows the specification's
words and is compared against the code's escaping. -/
def escCharFive (c : Char) : String :=
  if c = '&' then "&amp;"
  else if c = '<' then "&lt;"
  else if c = '>' then "&gt;"
  else if c = '"' then "&quot;"
  else if c = '\'' then "&apos;"
  else String.singleton c

/-- Five-character escaping applied to a whole string. -/
def escapeFive (s : String) : String :=
  strConcat (s.data.map escCharFive)

/-- Model of `_SeriesData._series_name_ref`: `"Sheet1!$%s$1" % col_letter`. -/
def seriesNameRefSimple (series_idx : Nat) : String :=
  "Sheet1!$" ++ colLetterSimple series_idx ++ "$1"

/-- Head of the `<c:tx>` template up to the escaped series name. -/
def txPrefixSimple (series_idx : Nat) : String :=
  "          <c:tx>\n            <c:strRef>\n              <c:f>"
    ++ seriesNameRefSimple series_idx
    ++ "</c:f>\n              <c:strCache>\n                <c:ptCount val=\"1\"/>\n"
    ++ "                <c:pt idx=\"0\">\n                  <c:v>"

/-- Tail of the `<c:tx>` template after the escaped series name. -/
def txSuffixSimple : String :=
  "</c:v>\n                </c:pt>\n              </c:strCache>\n"
    ++ "            </c:strRef>\n          </c:tx>\n"

/-- Model of `_SeriesData.tx_xml` with `nsdecls` empty: the `_tx_tmpl`
template filled with the worksheet reference and `escape(self.name)`. -/
def tx_xml_simple (series_idx : Nat) (name : String) : String :=
  "          <c:tx>\n            <c:strRef>\n              <c:f>"
    ++ seriesNameRefSimple series_idx
    ++ "</c:f>\n              <c:strCache>\n                <c:ptCount val=\"1\"/>\n"
    ++ "                <c:pt idx=\"0\">\n                  <c:v>"
    ++ pyEscape name
    ++ "</c:v>\n                </c:pt>\n              </c:strCache>\n"
    ++ "            </c:strRef>\n          </c:tx>\n"

/-- One `<c:pt>` fragment of `_SeriesData._cat_pt_xml`: the three-line
template filled with the point index and the category name, unmodified. -/
def catPtFragSimple (idx : Nat) (name : String) : String :=
  "                <c:pt idx=\"" ++ toString idx ++ "\">\n                  <c:v>"
    ++ name ++ "</c:v>\n                </c:pt>\n"

/-- Model of `_SeriesData._cat_pt_xml`: starts from the empty string and
appends one point fragment per `enumerate(self._categories)` entry. -/
def cat_pt_xml_simple (categories : List String) : String :=
  categories.enum.foldl (fun xml p => xml ++ catPtFragSimple p.1 p.2) ""

/-- One `<c:pt>` fragment of `_SeriesDataMoreDetails._val_pt_xml`. -/
def valPtFragMore (idx : Nat) (value : String) : String :=
  "                <c:pt idx=\"" ++ toString idx ++ "\">\n                  <c:v>"
    ++ value ++ "</c:v>\n                </c:pt>\n"

/-- Model of `_SeriesDataMoreDetails._val_pt_xml`: appends one fragment per
supplied `(idx, value)` pair, but only when `idx < self.values_len`. -/
def val_pt_xml_more (values : List (Nat × String)) (values_len : Nat) : String :=
  values.foldl
    (fun xml p => if p.1 < values_len then xml ++ valPtFragMore p.1 p.2 else xml) ""

/-- C5: the Detailed value fragment holds exactly one point fragment per
supplied pair whose index is below `values_len`, in supply order, and no
fragment for a pair at or beyond `values_len`; with `values_len = 3` and
pairs `(0, 1.0), (5, 9.0)` only the index-0 point is emitted. -/
theorem val_pt_xml_exactly_in_range_points :
    (∀ (values : List (Nat × String)) (values_len : Nat),
        val_pt_xml_more values values_len
          = strConcat (((values.filter fun p => decide (p.1 < values_len))).map
              fun p => valPtFragMore p.1 p.2))
    ∧ val_pt_xml_more [(0, "1.0"), (5, "9.0")] 3 = valPtFragMore 0 "1.0" := by
  constructor
  · intro values values_len
    have h := foldl_filter_append_eq_strConcat
      (fun p : Nat × String => p.1 < values_len) (fun p => valPtFragMore p.1 p.2) values ""
    unfold val_pt_xml_more
    rw [h]
    exact (strConcat (List.map _ _)).empty_append ▸ rfl
  · decide

/-- Level opening tag used by `_SeriesDataMoreDetails._cat_pt_xml` when the
categories have more than one level. -/
def lvlStartTag (multi : Bool) : String :=
  if multi then "                  <c:lvl>\n" else ""

/-- Level closing tag used by `_SeriesDataMoreDetails._cat_pt_xml` when the
categories have more than one level. -/
def lvlEndTag (multi : Bool) : String :=
  if multi then "                  </c:lvl>\n" else ""

/-- One `<c:pt>` fragment of `_SeriesDataMoreDetails._cat_pt_xml`: the
`pt_indent_spaces.join` construction prefixes each of the three template
lines with two further spaces in the multi-level case.  The category name
is embedded unmodified. -/
def catPtFragMore (multi : Bool) (idx : Nat) (name : String) : String :=
  let sep := if multi then "  " else ""
  sep ++ "                  <c:pt idx=\"" ++ toString idx ++ "\">\n"
    ++ sep ++ "                    <c:v>" ++ name ++ "</c:v>\n"
    ++ sep ++ "                  </c:pt>\n"

/-- Model of `_SeriesDataMoreDetails._cat_pt_xml`: the levels are visited in
reverse declaration order (`loop_range.reverse()` in the source); for each
level the opening tag, then one fragment per `(idx, name)` pair with
`idx < self.categories_len`, then the closing tag are appended. -/
def cat_pt_xml_more (categories : List (List (Nat × String)))
    (categories_len : Nat) : String :=
  let multi : Bool := decide (1 < categories.length)
  categories.reverse.foldl
    (fun xml lvl =>
      (lvl.foldl
        (fun s p => if p.1 < categories_len then s ++ catPtFragMore multi p.1 p.2 else s)
        (xml ++ lvlStartTag multi)) ++ lvlEndTag multi)
    ""

/-- The complete text block one level contributes to the category fragment. -/
def lvlBlock (multi : Bool) (categories_len : Nat) (lvl : List (Nat × String)) : String :=
  lvlStartTag multi
    ++ strConcat (((lvl.filter fun p => decide (p.1 < categories_len))).map
        fun p => catPtFragMore multi p.1 p.2)
    ++ lvlEndTag multi

theorem cat_pt_xml_more_foldl (multi : Bool) (categories_len : Nat) :
    ∀ (lvls : List (List (Nat × String))) (acc : String),
      lvls.foldl
        (fun xml lvl =>
          (lvl.foldl
            (fun s p =>
              if p.1 < categories_len then s ++ catPtFragMore multi p.1 p.2 else s)
            (xml ++ lvlStartTag multi)) ++ lvlEndTag multi)
        acc
      = acc ++ strConcat (lvls.map (lvlBlock multi categories_len)) := by
  intro lvls
  induction lvls with
  | nil => intro acc; simp [strConcat]
  | cons l ls ih =>
      intro acc
      rw [List.foldl_cons, ih, foldl_filter_append_eq_strConcat]
      simp only [List.map_cons, strConcat_cons, lvlBlock]
      simp only [String.append_assoc]

/-- C7: for multi-level categories the rendered category fragment is the
concatenation of exactly one level block per declared level, taken in
reverse declaration order; for levels `[L0, L1]` the block of `L1` appears
before the block of `L0`. -/
theorem cat_levels_rendered_reversed :
    (∀ (categories : List (List (Nat × String))) (categories_len : Nat),
        1 < categories.length →
          cat_pt_xml_more categories categories_len
            = strConcat (categories.reverse.map (lvlBlock true categories_len)))
    ∧ (∀ (L0 L1 : List (Nat × String)) (categories_len : Nat),
        cat_pt_xml_more [L0, L1] categories_len
          = lvlBlock true categories_len L1 ++ lvlBlock true categories_len L0) := by
  have key : ∀ (categories : List (List (Nat × String))) (categories_len : Nat),
      1 < categories.length →
        cat_pt_xml_more categories categories_len
          = strConcat (categories.reverse.map (lvlBlock true categories_len)) := by
    intro categories categories_len h
    unfold cat_pt_xml_more
    have hmulti : decide (1 < categories.length) = true := by simp [h]
    rw [hmulti, cat_pt_xml_more_foldl]
    exact (strConcat _).empty_append
  refine ⟨key, ?_⟩
  intro L0 L1 categories_len
  rw [key [L0, L1] categories_len (by simp)]
  show strConcat [lvlBlock true categories_len L1, lvlBlock true categories_len L0]
    = lvlBlock true categories_len L1 ++ lvlBlock true categories_len L0
  rw [strConcat_cons, strConcat_cons, strConcat_nil, String.append_empty]

/-- C7 witness: the reversal theorem applied to a concrete two-level
category sequence. -/
theorem cat_levels_rendered_reversed_witness :
    cat_pt_xml_more [[(0, "a")], [(0, "b")]] 1
      = strConcat ([[(0, "a")], [(0, "b")]].reverse.map (lvlBlock true 1)) :=
  cat_levels_rendered_reversed.1 [[(0, "a")], [(0, "b")]] 1 (by decide)

/-- C8 counterexample: the category label `a&b` is embedded verbatim in the
rendered fragment, not in five-character-escaped form, and the series-name
escaping leaves a double quote unchanged where five-character escaping
would produce an entity. -/
theorem c8_label_not_escaped_counterexample :
    cat_pt_xml_simple ["a&b"] = catPtFragSimple 0 "a&b"
    ∧ cat_pt_xml_simple ["a&b"] ≠ catPtFragSimple 0 (escapeFive "a&b")
    ∧ pyEscape "\"" = "\""
    ∧ escapeFive "\"" = "&quot;"
    ∧ pyEscape "\"" ≠ escapeFive "\"" := by
  refine ⟨?_, ?_, ?_, ?_, ?_⟩ <;> decide

theorem escChar_no_angle (c : Char) :
    ¬ '<' ∈ (escChar c).data ∧ ¬ '>' ∈ (escChar c).data := by
  unfold escChar
  by_cases h1 : c = '&'
  · rw [if_pos h1]; decide
  · rw [if_neg h1]
    by_cases h2 : c = '<'
    · rw [if_pos h2]; decide
    · rw [if_neg h2]
      by_cases h3 : c = '>'
      · rw [if_pos h3]; decide
      · rw [if_neg h3]
        constructor
        · intro hm
          rw [data_singleton, List.mem_singleton] at hm
          exact h2 hm.symm
        · intro hm
          rw [data_singleton, List.mem_singleton] at hm
          exact h3 hm.symm

theorem strConcat_data (l : List String) :
    (strConcat l).data = (l.map String.data).flatten := by
  induction l with
  | nil => rfl
  | cons s rest ih =>
      rw [strConcat_cons, String.data_append, ih]
      rfl

theorem escChar_id_of_plain (c : Char) (h : c ≠ '&' ∧ c ≠ '<' ∧ c ≠ '>') :
    escChar c = String.singleton c := by
  unfold escChar
  rw [if_neg h.1, if_neg h.2.1, if_neg h.2.2]

/-- C8 (amended): only the series name is escaped, and only for the three
characters `xml.sax.saxutils.escape` handles by default — ampersand,
less-than and greater-than; quote characters pass through untouched, and
category label text is embedded without any escaping at all. -/
theorem name_escaped_three_chars_labels_raw :
    (∀ (series_idx : Nat) (name : String),
        tx_xml_simple series_idx name
          = txPrefixSimple series_idx ++ (pyEscape name ++ txSuffixSimple))
    ∧ (∀ name : String,
        ¬ '<' ∈ (pyEscape name).data ∧ ¬ '>' ∈ (pyEscape name).data)
    ∧ (∀ name : String,
        (∀ c ∈ name.data, c ≠ '&' ∧ c ≠ '<' ∧ c ≠ '>') → pyEscape name = name)
    ∧ pyEscape "\"'" = "\"'"
    ∧ (∀ categories : List String,
        cat_pt_xml_simple categories
          = strConcat (categories.enum.map fun p => catPtFragSimple p.1 p.2)) := by
  refine ⟨?_, ?_, ?_, by decide, ?_⟩
  · intro series_idx name
    unfold tx_xml_simple txPrefixSimple txSuffixSimple
    simp only [String.append_assoc]
  · intro name
    unfold pyEscape
    constructor <;>
    · intro hm
      rw [strConcat_data, List.map_map, List.mem_flatten] at hm
      obtain ⟨cs, hcs, hmem⟩ := hm
      rw [List.mem_map] at hcs
      obtain ⟨c, _, rfl⟩ := hcs
      first
        | exact (escChar_no_angle c).1 hmem
        | exact (escChar_no_angle c).2 hmem
  · intro name h
    unfold pyEscape
    suffices hgen : ∀ cs : List Char, (∀ c ∈ cs, c ≠ '&' ∧ c ≠ '<' ∧ c ≠ '>') →
        strConcat (cs.map escChar) = String.mk cs by
      exact hgen name.data h
    intro cs
    induction cs with
    | nil => intro _; rfl
    | cons c rest ih =>
        intro hcs
        rw [List.map_cons, strConcat_cons, escChar_id_of_plain c (hcs c (by simp))]
        rw [ih fun d hd => hcs d (by simp [hd])]
        rfl
  · intro categories
    unfold cat_pt_xml_simple
    rw [foldl_append_eq_strConcat]
    exact (strConcat _).empty_append

/-- C8 witness: the amended theorem applied to a concrete name made of
plain characters, which the escaping leaves unchanged. -/
theorem name_escaped_three_chars_labels_raw_witness :
    pyEscape "Series 1" = "Series 1" :=
  name_escaped_three_chars_labels_raw.2.2.1 "Series 1" (by decide)

/-! ## Chart data objects and the shared categories container

`ChartData` keeps its categories in a Python list.  `ChartData.add_series`
hands that very list object to the new `_SeriesData`, and the `categories`
setter replaces the list's contents in place (`self._categories[:] = ...`),
so plain series observe later reassignments.  `ChartDataMoreDetails`
inherits the setter but its `add_series` passes `self.categories` — the
getter, which returns `tuple(self._categories)`, an immutable copy.  The
mutable list objects are modelled by a small store addressed by position;
a series holds either an address (a list object) or a tuple value.
-/

/-- A store of Python list objects: each cell holds the current contents of
one list object, and an address is a position in the store.  An in-place
mutation updates a cell; `tuple()` of a list copies the contents out. -/
structure PyListStore (α : Type) where
  cells : List (List α)
deriving DecidableEq

/-- Contents of the list object at `addr`. -/
def PyListStore.get {α : Type} (st : PyListStore α) (addr : Nat) : List α :=
  st.cells.getD addr []

/-- Replace the contents of the list object at `addr` in place. -/
def PyListStore.set {α : Type} (st : PyListStore α) (addr : Nat) (v : List α) :
    PyListStore α :=
  ⟨st.cells.set addr v⟩

/-- A Python sequence as held by a series object: either a reference to a
shared mutable list object, or an immutable tuple value. -/
inductive PySeq (α : Type) where
  | listRef (addr : Nat)
  | tupVal (v : List α)
deriving DecidableEq

/-- The contents a holder of this sequence observes right now. -/
def PySeq.current {α : Type} (seq : PySeq α) (st : PyListStore α) : List α :=
  match seq with
  | .listRef addr => st.get addr
  | .tupVal v => v

/-- Model of `_SeriesData`: the constructor stores index, name, values and
the categories argument exactly as passed. -/
structure SeriesDataRec where
  series_idx : Nat
  name : String
  values : List String
  categories : PySeq String
deriving DecidableEq

/-- Model of `ChartData`: `_categories` is a list object held by address,
`_series_lst` the accumulated series records. -/
structure ChartDataRec where
  catsAddr : Nat
  series_lst : List SeriesDataRec
deriving DecidableEq

/-- Model of `ChartData.add_series`: the next index is the current series
count, the new record receives the list object `self._categories` itself,
and the record is appended.  The method body has no `return` statement, so
Python returns `None`, modelled as the second component. -/
def chartData_add_series (cd : ChartDataRec) (name : String) (values : List String) :
    ChartDataRec × Option SeriesDataRec :=
  let series : SeriesDataRec :=
    ⟨cd.series_lst.length, name, values, .listRef cd.catsAddr⟩
  ({ cd with series_lst := cd.series_lst ++ [series] }, none)

/-- Model of the `ChartData.categories` setter:
`self._categories[:] = categories` mutates the shared list in place. -/
def chartData_set_categories (st : PyListStore String) (cd : ChartDataRec)
    (categories : List String) : PyListStore String :=
  st.set cd.catsAddr categories

/-- One level of detailed categories: a sparse sequence of
`(index, label)` pairs. -/
abbrev CatLevel := List (Nat × String)

/-- Python truthiness of an optional integer argument: `None` and `0` are
falsy, every other integer truthy. -/
def pyTruthyNat : Option Nat → Bool
  | none => false
  | some n => decide (n ≠ 0)

/-- Python truthiness of an optional string argument. -/
def pyTruthyStr : Option String → Bool
  | none => false
  | some s => decide (s ≠ "")

/-- Model of `max(i[0] for i in values) + 1`; Python's `max` raises
`ValueError` on an empty sequence, modelled as `none`. -/
def maxIdxPlusOne (values : List (Nat × String)) : Option Nat :=
  ((values.map Prod.fst).max?).map (fun m => m + 1)

/-- The two `values_len` bookkeeping lines of
`_SeriesDataMoreDetails.__init__`:
`self._values_len = values_len or max(i[0] for i in values) + 1` and
`self._auto_values_len = True if values_len else False`; the result pairs
the stored length with the stored flag. -/
def initValuesLen (values : List (Nat × String)) (values_len? : Option Nat) :
    Option (Nat × Bool) :=
  if pyTruthyNat values_len? then some (values_len?.getD 0, true)
  else (maxIdxPlusOne values).map (fun m => (m, false))

/-- Model of `max(max(j[0] for j in i) for i in categories) + 1`, the
auto-derivation of `categories_len`; `none` models the `ValueError` raised
when the categories or one of the levels is empty. -/
def deriveCategoriesLen (cats : List CatLevel) : Option Nat := do
  let maxes ← cats.mapM (fun lvl => (lvl.map Prod.fst).max?)
  let m ← maxes.max?
  return m + 1

/-- Model of `_SeriesDataMoreDetails`. -/
structure SeriesDataMoreRec where
  series_idx : Nat
  name : String
  values : List (Nat × String)
  categories : PySeq CatLevel
  values_len : Nat
  auto_values_len : Bool
  categories_len : Option Nat
  format_code : String
deriving DecidableEq

/-- Model of `_SeriesDataMoreDetails.__init__`.  The categories argument is
stored exactly as passed; `values_len` and the auto flag follow
`initValuesLen`; `categories_len` is auto-derived only when the argument is
`None` and the passed categories are non-empty; the format code defaults to
"General".  The length-mismatch warning the constructor may emit changes no
state and is not modelled.  `none` models an exception escaping the
constructor. -/
def seriesDataMore_init (st : PyListStore CatLevel) (series_idx : Nat)
    (name : String) (values : List (Nat × String)) (categories : PySeq CatLevel)
    (values_len? : Option Nat) (categories_len? : Option Nat)
    (format_code? : Option String) : Option SeriesDataMoreRec := do
  let vla ← initValuesLen values values_len?
  let clen ← (match categories_len? with
    | some n => some (some n)
    | none =>
        if (categories.current st).length ≠ 0 then
          (deriveCategoriesLen (categories.current st)).map some
        else some none)
  return { series_idx := series_idx, name := name, values := values,
           categories := categories,
           values_len := vla.1, auto_values_len := vla.2,
           categories_len := clen,
           format_code :=
             if pyTruthyStr format_code? then format_code?.getD "" else "General" }

/-- Model of the `values` setter of `_SeriesDataMoreDetails`: store the new
pairs and recompute `_values_len` only when `_auto_values_len` is set. -/
def seriesDataMore_set_values (s : SeriesDataMoreRec)
    (new_values : List (Nat × String)) : Option SeriesDataMoreRec :=
  if s.auto_values_len then
    (maxIdxPlusOne new_values).map
      (fun m => { s with values := new_values, values_len := m })
  else some { s with values := new_values }

/-- Model of `ChartDataMoreDetails`. -/
structure ChartDataMoreRec where
  catsAddr : Nat
  series_lst : List SeriesDataMoreRec
  categories_len : Option Nat
  values_len : Option Nat
deriving DecidableEq

/-- Model of `ChartDataMoreDetails.add_series`: the next index is the
current series count; the constructor receives `self.categories` — the
inherited getter, i.e. `tuple(self._categories)`, an immutable snapshot of
the shared list — together with `values_len or self._values_len`, the
data-set level `categories_len`, and the format code.  The new record is
appended; the method body has no `return` statement, so Python returns
`None`. -/
def chartDataMore_add_series (st : PyListStore CatLevel) (cd : ChartDataMoreRec)
    (name : String) (values : List (Nat × String)) (values_len? : Option Nat)
    (format_code? : Option String) :
    Option (ChartDataMoreRec × Option SeriesDataMoreRec) := do
  let series_idx := cd.series_lst.length
  let vlenArg := if pyTruthyNat values_len? then values_len? else cd.values_len
  let snapshot : PySeq CatLevel := .tupVal (st.get cd.catsAddr)
  let series ← seriesDataMore_init st series_idx name values snapshot vlenArg
    cd.categories_len format_code?
  return ({ cd with series_lst := cd.series_lst ++ [series] }, none)

/-- Model of the categories setter as inherited by `ChartDataMoreDetails`:
the same in-place replacement of the shared list's contents. -/
def chartDataMore_set_categories (st : PyListStore CatLevel)
    (cd : ChartDataMoreRec) (categories : List CatLevel) : PyListStore CatLevel :=
  st.set cd.catsAddr categories

/-- C3 evaluated at the failing input: on a `ChartDataMoreDetails` data set
holding one category level `[(0, "old")]`, a series is added and the
categories are then reassigned to `[(0, "new")]`.  The already-added series
still observes the snapshot taken at `add_series` time, not the current
categories, while the same sequence on a plain `ChartData` does observe the
reassigned contents. -/
theorem c3_more_details_series_keeps_snapshot :
    ((chartDataMore_add_series ⟨[[[(0, "old")]]]⟩ ⟨0, [], none, none⟩
        "s" [(0, "1.0")] none none).map
      (fun r => r.1.series_lst.map fun s =>
        s.categories.current
          (chartDataMore_set_categories ⟨[[[(0, "old")]]]⟩ r.1 [[(0, "new")]])))
      = some [[[(0, "old")]]]
    ∧ (chartDataMore_set_categories ⟨[[[(0, "old")]]]⟩ ⟨0, [], none, none⟩
        [[(0, "new")]]).get 0 = [[(0, "new")]]
    ∧ ([[(0, "old")]] : List CatLevel) ≠ [[(0, "new")]]
    ∧ ((chartData_add_series ⟨0, []⟩ "s" ["1.0"]).1.series_lst.map fun s =>
        s.categories.current (chartData_set_categories ⟨[["old"]]⟩ ⟨0, []⟩ ["new"]))
      = [["new"]] := by
  refine ⟨?_, ?_, ?_, ?_⟩ <;> decide

/-- C6 evaluated at the failing input: a Detailed series built from
`values = [(0, "1.0")]` with no `values_len` derives length 1 but stores
the auto flag as `False`, so reassigning `values` to pairs reaching index 4
leaves `values_len` at 1 where the claim demands 5; conversely a series
built with explicit `values_len = 3` stores the flag as `True`, so
reassigning `values` to pairs reaching index 9 overwrites the explicit
length with 10 where the claim demands it stay 3. -/
theorem c6_auto_values_len_flag_inverted :
    ((seriesDataMore_init ⟨[]⟩ 0 "s" [(0, "1.0")] (.tupVal [[(0, "c")]])
        none none none).map (fun s => (s.values_len, s.auto_values_len)))
      = some (1, false)
    ∧ ((seriesDataMore_init ⟨[]⟩ 0 "s" [(0, "1.0")] (.tupVal [[(0, "c")]])
        none none none).bind
        (fun s => seriesDataMore_set_values s [(0, "1.0"), (4, "2.0")])).map
          (fun s => s.values_len) = some 1
    ∧ (1 : Nat) ≠ 5
    ∧ ((seriesDataMore_init ⟨[]⟩ 0 "s" [(0, "1.0")] (.tupVal [[(0, "c")]])
        (some 3) none none).bind
        (fun s => seriesDataMore_set_values s [(0, "1.0"), (9, "8.0")])).map
          (fun s => s.values_len) = some 10
    ∧ (10 : Nat) ≠ 3 := by
  refine ⟨?_, ?_, ?_, ?_, ?_⟩ <;> decide

/-- C9 counterexample: `add_series` ends without a `return` statement, so
its Python return value is `None`, not the constructed series record. -/
theorem c9_add_series_returns_none :
    (chartData_add_series ⟨0, []⟩ "s" ["1.0"]).2 = none
    ∧ (chartData_add_series ⟨0, []⟩ "s" ["1.0"]).2
        ≠ some ⟨0, "s", ["1.0"], .listRef 0⟩ := by
  refine ⟨rfl, ?_⟩
  decide

theorem seriesDataMore_init_series_idx (st : PyListStore CatLevel) (i : Nat)
    (name : String) (values : List (Nat × String)) (cats : PySeq CatLevel)
    (vl cl : Option Nat) (fc : Option String) (s : SeriesDataMoreRec)
    (h : seriesDataMore_init st i name values cats vl cl fc = some s) :
    s.series_idx = i := by
  unfold seriesDataMore_init at h
  obtain ⟨vla, _, h2⟩ := Option.bind_eq_some.mp h
  obtain ⟨clen, _, h4⟩ := Option.bind_eq_some.mp h2
  have hs := Option.some.inj h4
  rw [← hs]

/-- C9 (amended): `add_series` of both variants assigns the new series the
pre-append series count as its index and appends it as the last element,
leaving all existing records untouched; the method returns `None`, not the
constructed record. -/
theorem add_series_appends_with_next_index :
    (∀ (cd : ChartDataRec) (name : String) (values : List String),
        (chartData_add_series cd name values).1.series_lst
            = cd.series_lst
                ++ [⟨cd.series_lst.length, name, values, .listRef cd.catsAddr⟩]
        ∧ (chartData_add_series cd name values).2 = none)
    ∧ (∀ (st : PyListStore CatLevel) (cd : ChartDataMoreRec) (name : String)
         (values : List (Nat × String)) (values_len? : Option Nat)
         (format_code? : Option String) (cd' : ChartDataMoreRec)
         (r : Option SeriesDataMoreRec),
        chartDataMore_add_series st cd name values values_len? format_code?
            = some (cd', r) →
          ∃ series : SeriesDataMoreRec,
            cd'.series_lst = cd.series_lst ++ [series]
            ∧ series.series_idx = cd.series_lst.length
            ∧ r = none) := by
  constructor
  · intro cd name values
    exact ⟨rfl, rfl⟩
  · intro st cd name values values_len? format_code? cd' r h
    unfold chartDataMore_add_series at h
    dsimp only at h
    obtain ⟨series, hinit, hpure⟩ := Option.bind_eq_some.mp h
    have hpair := Option.some.inj hpure
    refine ⟨series, ?_, seriesDataMore_init_series_idx _ _ _ _ _ _ _ _ _ hinit, ?_⟩
    · have hfst := congrArg Prod.fst hpair
      simp only at hfst
      rw [← hfst]
    · have hsnd := congrArg Prod.snd hpair
      simpa using hsnd.symm

/-- C9 witness: the amended theorem applied to a concrete detailed data
set, exhibiting the appended record with index 0 and the `None` return. -/
theorem add_series_appends_with_next_index_witness :
    ∃ series : SeriesDataMoreRec,
      (⟨0, [⟨0, "s", [(0, "1")], .tupVal [[(0, "c")]], 1, false, some 1,
          "General"⟩], none, none⟩ : ChartDataMoreRec).series_lst
          = (⟨0, [], none, none⟩ : ChartDataMoreRec).series_lst ++ [series]
      ∧ series.series_idx
          = (⟨0, [], none, none⟩ : ChartDataMoreRec).series_lst.length
      ∧ (none : Option SeriesDataMoreRec) = none :=
  add_series_appends_with_next_index.2 ⟨[[[(0, "c")]]]⟩ ⟨0, [], none, none⟩
    "s" [(0, "1")] none none _ none (by decide)

/-! ## Worksheet layout (`WorkbookWriter._populate_worksheet`)

The planner receives the data set's categories and series objects and
performs a sequence of cell writes on an `xlsxwriter` worksheet; `write`
and `write_column` take zero-based coordinates.
-/

/-- One worksheet cell write: zero-based row, zero-based column, content. -/
structure WsWrite where
  row : Nat
  col : Nat
  cell : String
deriving DecidableEq

/-- The categories argument as `_populate_worksheet` inspects it:
`len(categories) != 0 and isinstance(categories[0], (list, tuple))`
distinguishes a sequence of levels of pairs from a flat label sequence. -/
inductive WsCategories where
  | flat (labels : List String)
  | multi (levels : List CatLevel)
deriving DecidableEq

/-- The values of one series as the planner inspects them:
`len(values) != 0 and isinstance(values[0], tuple)` distinguishes sparse
pairs from a dense run. -/
inductive WsValues where
  | dense (vals : List String)
  | sparse (pairs : List (Nat × String))
deriving DecidableEq

/-- What the planner reads from one series object: its `index`, `name` and
`values` attributes. -/
structure WsSeries where
  index : Nat
  name : String
  values : WsValues
deriving DecidableEq

/-- The category cell writes together with `value_start_col`.  With
multi-level categories each level `ilvl` writes its pairs at
`(1 + idx, ilvl)` and the series start after the last level column; a flat
(or empty) sequence is written as one column at column 0, with the series
starting at column 1. -/
def categoryWrites : WsCategories → List WsWrite × Nat
  | .multi (l :: ls) =>
      ((l :: ls).enum.flatMap
          (fun p => p.2.map fun q => WsWrite.mk (1 + q.1) p.1 q.2),
        (l :: ls).length)
  | .multi [] => ([], 1)
  | .flat labels => (labels.enum.map fun p => WsWrite.mk (1 + p.1) 0 p.2, 1)

/-- The cell writes the planner performs for one series: the header
`(0, index + value_start_col)` gets the series name, then sparse values are
written one cell per supplied pair at row `1 + idx` with no filtering, and
dense values as a column starting at row 1. -/
def seriesWrites (value_start_col : Nat) (s : WsSeries) : List WsWrite :=
  WsWrite.mk 0 (s.index + value_start_col) s.name ::
    (match s.values with
     | .sparse [] => []
     | .sparse (p :: ps) =>
         (p :: ps).map fun q => WsWrite.mk (1 + q.1) (s.index + value_start_col) q.2
     | .dense vals =>
         vals.enum.map fun q => WsWrite.mk (1 + q.1) (s.index + value_start_col) q.2)

/-- Model of `WorkbookWriter._populate_worksheet`: the category writes, then
the writes of each series in list order. -/
def populateWorksheet (categories : WsCategories) (series : List WsSeries) :
    List WsWrite :=
  (categoryWrites categories).1
    ++ series.flatMap (seriesWrites (categoryWrites categories).2)

/-- Model of `_SeriesDataMoreDetails._series_name_ref`. -/
def seriesNameRefMore (categories : List CatLevel) (series_idx : Nat) : String :=
  "Sheet1!$" ++ colLetterMore categories series_idx ++ "$1"

/-- Model of `xlsxwriter.utility.xl_rowcol_to_cell` with absolute flags
(external collaborator): a zero-based `(row, col)` pair rendered as
`$COL$ROW` with a one-based row number. -/
def xl_rowcol_to_cell (row col : Nat) : String :=
  "$" ++ xl_col_to_name col ++ "$" ++ toString (row + 1)

/-- Model of `_SeriesDataMoreDetails._categories_ref`. -/
def categoriesRefMore (categories : List CatLevel) (categories_len : Nat) : String :=
  "Sheet1!$A$2:" ++ xl_rowcol_to_cell categories_len (categories.length - 1)

/-- Model of `_SeriesDataMoreDetails._values_ref`. -/
def valuesRefMore (categories : List CatLevel) (series_idx : Nat)
    (values_len : Nat) : String :=
  "Sheet1!$" ++ colLetterMore categories series_idx ++ "$2:$"
    ++ colLetterMore categories series_idx ++ "$" ++ toString (values_len + 1)

/-- Model of `_SeriesData._values_ref` (Simple variant; `values_count` is
`len(self._values)`). -/
def valuesRefSimple (series_idx : Nat) (values_count : Nat) : String :=
  "Sheet1!$" ++ colLetterSimple series_idx ++ "$2:$"
    ++ colLetterSimple series_idx ++ "$" ++ toString (values_count + 1)

/-- The zero-based worksheet cell a consumer derives from an absolute
single-cell token `$COL$row` of a reference formula: the column name is
parsed back to a number and the one-based row is decremented. -/
def derivedCell (colName : String) (row : Nat) : Nat × Nat :=
  (row - 1, colNameToNum colName)

/-- The zero-based cell derived for point `ptIdx` of a reference range that
starts at the given one-based row: the point sits `ptIdx` rows below the
range start, in the range's column. -/
def derivedRangeCell (colName : String) (startRow ptIdx : Nat) : Nat × Nat :=
  (startRow - 1 + ptIdx, colNameToNum colName)

theorem colNameToNum_colLetterSimple (i : Nat) (h : i ≤ 24) :
    colNameToNum (colLetterSimple i) = i + 1 := by
  unfold colNameToNum colLetterSimple
  rw [data_singleton]
  simp only [List.foldl_cons, List.foldl_nil]
  have h66 : 66 + i = 65 + (i + 1) := by omega
  rw [h66, char_ofNat_letter_toNat (i + 1) (by omega)]
  omega

theorem colNameToNum_colLetterMore (categories : List CatLevel) (i : Nat) :
    colNameToNum (colLetterMore categories i) = max 1 categories.length + i := by
  unfold colLetterMore
  exact colNameToNum_xl_col_to_name _

theorem mem_populate_of_mem_seriesWrites {cats : WsCategories}
    {sers : List WsSeries} {s : WsSeries} {w : WsWrite} (hs : s ∈ sers)
    (hw : w ∈ seriesWrites (categoryWrites cats).2 s) :
    w ∈ populateWorksheet cats sers := by
  unfold populateWorksheet
  exact List.mem_append_right _ (List.mem_flatMap.mpr ⟨s, hs, hw⟩)

theorem mem_populate_of_mem_catWrites {cats : WsCategories}
    {sers : List WsSeries} {w : WsWrite} (hw : w ∈ (categoryWrites cats).1) :
    w ∈ populateWorksheet cats sers :=
  List.mem_append_left _ hw

theorem header_mem_seriesWrites (value_start_col : Nat) (s : WsSeries) :
    WsWrite.mk 0 (s.index + value_start_col) s.name
      ∈ seriesWrites value_start_col s := by
  unfold seriesWrites
  exact List.mem_cons_self _ _

theorem sparse_pair_mem_seriesWrites (value_start_col : Nat) (s : WsSeries)
    (pairs : List (Nat × String)) (hv : s.values = .sparse pairs)
    {q : Nat × String} (hq : q ∈ pairs) :
    WsWrite.mk (1 + q.1) (s.index + value_start_col) q.2
      ∈ seriesWrites value_start_col s := by
  unfold seriesWrites
  rw [hv]
  cases pairs with
  | nil => cases hq
  | cons p ps =>
      exact List.mem_cons_of_mem _ (List.mem_map.mpr ⟨q, hq, rfl⟩)

theorem dense_value_mem_seriesWrites (value_start_col : Nat) (s : WsSeries)
    (vals : List String) (hv : s.values = .dense vals)
    {k : Nat} {v : String} (hk : vals[k]? = some v) :
    WsWrite.mk (1 + k) (s.index + value_start_col) v
      ∈ seriesWrites value_start_col s := by
  unfold seriesWrites
  rw [hv]
  exact List.mem_cons_of_mem _
    (List.mem_map.mpr ⟨(k, v), List.mk_mem_enum_iff_getElem?.mpr hk, rfl⟩)

theorem multi_start_col (levels : List CatLevel) (h : levels ≠ []) :
    (categoryWrites (.multi levels)).2 = levels.length := by
  cases levels with
  | nil => exact absurd rfl h
  | cons l ls => rfl

theorem multi_cat_mem_catWrites (levels : List CatLevel) (h : levels ≠ [])
    {ilvl : Nat} {lvl : CatLevel} (hl : levels[ilvl]? = some lvl)
    {q : Nat × String} (hq : q ∈ lvl) :
    WsWrite.mk (1 + q.1) ilvl q.2 ∈ (categoryWrites (.multi levels)).1 := by
  cases levels with
  | nil => exact absurd rfl h
  | cons l ls =>
      dsimp only [categoryWrites]
      refine List.mem_flatMap.mpr ⟨(ilvl, lvl), List.mk_mem_enum_iff_getElem?.mpr hl, ?_⟩
      exact List.mem_map.mpr ⟨q, hq, rfl⟩

theorem flat_cat_mem_catWrites (labels : List String)
    {k : Nat} {label : String} (hk : labels[k]? = some label) :
    WsWrite.mk (1 + k) 0 label ∈ (categoryWrites (.flat labels)).1 := by
  dsimp only [categoryWrites]
  exact List.mem_map.mpr ⟨(k, label), List.mk_mem_enum_iff_getElem?.mpr hk, rfl⟩

/-- C1 counterexample: the claim says the planner skips pairs whose index
is at least `values_len`.  With `values_len = 3` and pairs
`(0, 1.0), (5, 9.0)` the planner writes the cell at zero-based row 6
(worksheet row `5 + 2`) of the series column for the out-of-range pair,
while the serializer's value fragment emits only the index-0 point and its
reference range ends at worksheet row 4. -/
theorem c1_planner_writes_out_of_range_pair :
    WsWrite.mk 6 1 "9.0"
        ∈ populateWorksheet (.multi [[(0, "c0")]])
            [⟨0, "s", .sparse [(0, "1.0"), (5, "9.0")]⟩]
    ∧ ¬ (5 : Nat) < 3
    ∧ val_pt_xml_more [(0, "1.0"), (5, "9.0")] 3 = valPtFragMore 0 "1.0"
    ∧ valuesRefMore [[(0, "c0")]] 0 3 = "Sheet1!$B$2:$B$4" := by
  refine ⟨by decide, by decide, by decide, ?_⟩
  have hB : colLetterMore [[(0, "c0")]] 0 = "B" := by
    have h1 : max 1 (List.length ([[(0, "c0")]] : List CatLevel)) + 0 = 1 := by decide
    unfold colLetterMore
    rw [h1, xl_col_to_name_eq_specColName, specColName, dif_pos (by omega : 1 < 26)]
    decide
  unfold valuesRefMore
  rw [hB]
  decide

/-- C1 (amended): every cell the planner writes for a logical point the
serializer references carries exactly the address derivable from the
corresponding reference formula.  For a Detailed series over multi-level
categories: the header sits at worksheet row 1 of the column named in
`_series_name_ref`, each present pair `(idx, v)` is written at row
`idx + 2` of the column named in `_values_ref` (agreement holding for
`idx < values_len`, the points the serializer emits), and each in-range
category pair of level `ilvl` at row `idx + 2` of the `ilvl`-th column from
A.  The planner, however, writes every present value pair, including those
with `idx ≥ values_len`, which the serializer omits.  For a Simple series
with flat categories and index at most 24 the same agreement holds for the
header, the dense values and the labels. -/
theorem planner_cells_match_reference_formulas :
    (∀ (levels : List CatLevel), levels ≠ [] →
      ∀ (sers : List WsSeries) (s : WsSeries), s ∈ sers →
      ∀ (pairs : List (Nat × String)), s.values = .sparse pairs →
      ∀ values_len : Nat,
        (WsWrite.mk 0 (s.index + levels.length) s.name
            ∈ populateWorksheet (.multi levels) sers
          ∧ derivedCell (colLetterMore levels s.index) 1
              = (0, s.index + levels.length))
        ∧ (∀ p ∈ pairs,
            WsWrite.mk (1 + p.1) (s.index + levels.length) p.2
              ∈ populateWorksheet (.multi levels) sers
            ∧ (p.1 < values_len →
                derivedRangeCell (colLetterMore levels s.index) 2 p.1
                  = (1 + p.1, s.index + levels.length)))
        ∧ (∀ (ilvl : Nat) (lvl : CatLevel), levels[ilvl]? = some lvl →
            ∀ q ∈ lvl,
              WsWrite.mk (1 + q.1) ilvl q.2
                ∈ populateWorksheet (.multi levels) sers
              ∧ (colNameToNum "A" + ilvl, 2 - 1 + q.1) = (ilvl, 1 + q.1)))
    ∧ (∀ (labels : List String) (sers : List WsSeries) (s : WsSeries),
        s ∈ sers → s.index ≤ 24 →
        ∀ (vals : List String), s.values = .dense vals →
          (WsWrite.mk 0 (s.index + 1) s.name
              ∈ populateWorksheet (.flat labels) sers
            ∧ derivedCell (colLetterSimple s.index) 1 = (0, s.index + 1))
          ∧ (∀ (k : Nat) (v : String), vals[k]? = some v →
              WsWrite.mk (1 + k) (s.index + 1) v
                ∈ populateWorksheet (.flat labels) sers
              ∧ derivedRangeCell (colLetterSimple s.index) 2 k
                  = (1 + k, s.index + 1))
          ∧ (∀ (k : Nat) (label : String), labels[k]? = some label →
              WsWrite.mk (1 + k) 0 label
                ∈ populateWorksheet (.flat labels) sers
              ∧ derivedRangeCell "A" 2 k = (1 + k, 0))) := by
  have hA : colNameToNum "A" = 0 := by decide
  constructor
  · intro levels hne sers s hs pairs hv values_len
    have hstart := multi_start_col levels hne
    have hlen : 1 ≤ levels.length := List.length_pos.mpr hne
    have hmax : max 1 levels.length = levels.length := Nat.max_eq_right hlen
    have hcol : colNameToNum (colLetterMore levels s.index)
        = levels.length + s.index := by
      rw [colNameToNum_colLetterMore, hmax]
    refine ⟨⟨?_, ?_⟩, ?_, ?_⟩
    · refine mem_populate_of_mem_seriesWrites hs ?_
      rw [hstart]
      exact header_mem_seriesWrites levels.length s
    · unfold derivedCell
      rw [hcol]
      try simp [Nat.add_comm]
    · intro p hp
      constructor
      · refine mem_populate_of_mem_seriesWrites hs ?_
        rw [hstart]
        exact sparse_pair_mem_seriesWrites levels.length s pairs hv hp
      · intro _
        unfold derivedRangeCell
        rw [hcol]
        try simp [Nat.add_comm]
    · intro ilvl lvl hl q hq
      refine ⟨?_, ?_⟩
      · exact mem_populate_of_mem_catWrites (multi_cat_mem_catWrites levels hne hl hq)
      · rw [hA]
        try simp
  · intro labels sers s hs hidx vals hv
    have hcol : colNameToNum (colLetterSimple s.index) = s.index + 1 :=
      colNameToNum_colLetterSimple s.index hidx
    have hstart : (categoryWrites (.flat labels)).2 = 1 := rfl
    refine ⟨⟨?_, ?_⟩, ?_, ?_⟩
    · refine mem_populate_of_mem_seriesWrites hs ?_
      rw [hstart]
      exact header_mem_seriesWrites 1 s
    · unfold derivedCell
      rw [hcol]
      try simp
    · intro k v hk
      constructor
      · refine mem_populate_of_mem_seriesWrites hs ?_
        rw [hstart]
        exact dense_value_mem_seriesWrites 1 s vals hv hk
      · unfold derivedRangeCell
        rw [hcol]
        try simp
    · intro k label hk
      refine ⟨?_, ?_⟩
      · exact mem_populate_of_mem_catWrites (flat_cat_mem_catWrites labels hk)
      · unfold derivedRangeCell
        rw [hA]
        try simp

/-- C1 witness: the amended theorem applied to a concrete flat data set
with one Simple series. -/
theorem planner_cells_match_reference_formulas_witness :
    ((WsWrite.mk 0 (0 + 1) "n"
        ∈ populateWorksheet (.flat ["x"]) [⟨0, "n", .dense ["7"]⟩]
      ∧ derivedCell (colLetterSimple 0) 1 = (0, 0 + 1))
     ∧ (∀ (k : Nat) (v : String), (["7"] : List String)[k]? = some v →
         WsWrite.mk (1 + k) (0 + 1) v
           ∈ populateWorksheet (.flat ["x"]) [⟨0, "n", .dense ["7"]⟩]
         ∧ derivedRangeCell (colLetterSimple 0) 2 k = (1 + k, 0 + 1))
     ∧ (∀ (k : Nat) (label : String), (["x"] : List String)[k]? = some label →
         WsWrite.mk (1 + k) 0 label
           ∈ populateWorksheet (.flat ["x"]) [⟨0, "n", .dense ["7"]⟩]
         ∧ derivedRangeCell "A" 2 k = (1 + k, 0))) :=
  planner_cells_match_reference_formulas.2 ["x"] [⟨0, "n", .dense ["7"]⟩]
    ⟨0, "n", .dense ["7"]⟩ (by decide) (by decide) ["7"] rfl

/-! ## Reference and cache elements on the read path
(`pptx/oxml/chart/series.py`)

The custom element classes are modelled structurally: a `ZeroOrOne` child is
an `Option` field returned as-is by its accessor (Python yields `None`, and
a subsequent attribute access on `None` raises `AttributeError`), while a
`OneAndOnlyOne` child is an `Option` field whose accessor raises when the
child is absent.  Reading what a property returns becomes an
`Except ReadErr` value.
-/

/-- Errors the read path can raise: the structural-corruption error of the
required-child descriptor, and Python's attribute error on `None`. -/
inductive ReadErr where
  | invalidXml
  | attributeError
deriving DecidableEq

/-- Modelled from the spec: the `OneAndOnlyOne` required-child descriptor of
the XML binding layer (its class lives outside the embedded sources) —
"Missing required children (e.g., a reference with no cache) is a hard
structural failure, not a silent default — callers must receive an explicit
error".  Accessing a present child yields it; accessing an absent one
raises the structural-corruption error. -/
def oneAndOnlyOne {β : Type} : Option β → Except ReadErr β
  | some x => .ok x
  | none => .error .invalidXml

/-- Model of `CT_StrCache` / `CT_Lvl` point content: the `ptCount` child
(required, possibly absent in corrupt input) and the `<c:pt>` children in
document order, each as `(idx, v.text)`. -/
structure StrCacheE where
  ptCount : Option Nat
  pts : List (Nat × String)
deriving DecidableEq

/-- Model of `CT_StrRef`: the optional `<c:f>` child and the required
`<c:strCache>` child. -/
structure StrRefE where
  f : Option String
  cache : Option StrCacheE
deriving DecidableEq

/-- Model of `CT_MultiLvlStrCache`: `ptCount` and one `<c:lvl>` child per
level, each level carrying its `<c:pt>` children. -/
structure MultiCacheE where
  ptCount : Option Nat
  lvls : List (List (Nat × String))
deriving DecidableEq

/-- Model of `CT_MultiLvlStrRef`. -/
structure MultiRefE where
  f : Option String
  cache : Option MultiCacheE
deriving DecidableEq

/-- Model of `CT_NumCache`: the optional `formatCode`, the required
`ptCount` and the `<c:pt>` children as `(idx, v.text)`. -/
structure NumCacheE where
  formatCode : Option String
  ptCount : Option Nat
  pts : List (Nat × String)
deriving DecidableEq

/-- Model of `CT_NumRef`. -/
structure NumRefE where
  f : Option String
  cache : Option NumCacheE
deriving DecidableEq

/-- Model of `CT_Cat`: the two `ZeroOrOne` reference children. -/
structure CatElemE where
  multiLvlStrRef : Option MultiRefE
  strRef : Option StrRefE
deriving DecidableEq

/-- Model of `CT_Val`: the `ZeroOrOne` numeric reference child. -/
structure ValElemE where
  numRef : Option NumRefE
deriving DecidableEq

/-- Model of `CT_Cat.is_multilvl`: true when the `<c:multiLvlStrRef>` child
is present. -/
def CT_Cat.is_multilvl (e : CatElemE) : Bool :=
  e.multiLvlStrRef.isSome

/-- Model of `CT_Cat.tuples_pts`: for multi-level categories one point
tuple sequence per `<c:lvl>` of the cache, otherwise a single sequence
wrapped in a one-element tuple.  `self.ref` yields the present reference
child or `None`; the `.cache` access on `None` raises `AttributeError`,
and the required-cache accessor raises the structural error. -/
def CT_Cat.tuples_pts (e : CatElemE) :
    Except ReadErr (List (List (Nat × String))) :=
  if CT_Cat.is_multilvl e then
    match e.multiLvlStrRef with
    | none => .error .attributeError
    | some r => (oneAndOnlyOne r.cache).map (fun c => c.lvls)
  else
    match e.strRef with
    | none => .error .attributeError
    | some r => (oneAndOnlyOne r.cache).map (fun c => [c.pts])

/-- Model of `CT_NumCache.tuple_pts` with the text-to-float conversion left
as a parameter `dec` standing for Python's `float()` parse (the embedded
code treats value text opaquely): a successful parse yields the numeric
value, a `ValueError` falls back to the literal text of that point only. -/
def CT_NumCache.tuple_pts {F : Type} (dec : String → Option F)
    (c : NumCacheE) : List (Nat × (F ⊕ String)) :=
  c.pts.map (fun p =>
    (p.1, match dec p.2 with
          | some v => Sum.inl v
          | none => Sum.inr p.2))

/-- Model of `CT_Val.tuples_pts` (`self.ref.cache.tuple_pts`). -/
def CT_Val.tuples_pts {F : Type} (dec : String → Option F) (e : ValElemE) :
    Except ReadErr (List (Nat × (F ⊕ String))) :=
  match e.numRef with
  | none => .error .attributeError
  | some r => (oneAndOnlyOne r.cache).map (CT_NumCache.tuple_pts dec)

/-- Model of `_Base_Seq.val_ptCount` (`self.ref.cache.ptCount.val`) for the
value element. -/
def CT_Val.val_ptCount (e : ValElemE) : Except ReadErr Nat :=
  match e.numRef with
  | none => .error .attributeError
  | some r => do
      let c ← oneAndOnlyOne r.cache
      oneAndOnlyOne c.ptCount

/-! ## Rendered markup through the external parser

`_SeriesData.cat` and `.val` format the templates and hand the text to the
XML layer (`parse_xml`), an external collaborator.  The element shape is
exactly the one spelled out by the template, but the parser also decodes
the character data of every `<c:v>` run: `_cat_pt_xml` interpolates the
label raw (see C8), so the point text the reader sees is the entity
decoding of the raw label, and a label that is not well-formed character
data fails the whole parse.  Value texts are produced by `'%s' % value`
and consumed by `float()`; this external literalisation pair is carried as
the `enc` / `dec` parameters. -/

/-- Model of `_SeriesData._categories_ref`. -/
def categoriesRefSimple (categories_count : Nat) : String :=
  "Sheet1!$A$2:$A$" ++ toString (categories_count + 1)

/-- Entity decoding of one character-data run by the external XML parser,
modelled from the standard the parser implements: the five standard
entities decode to their characters; a raw `<`, or a raw `&` not opening
one of the five entities, makes the run ill-formed and the parse fail
(`none`).  The fuel argument bounds the recursion and is always passed the
input length, of which every step consumes at least one character. -/
def xmlDecodeFuel : Nat → List Char → Option (List Char)
  | _, [] => some []
  | 0, _ :: _ => none
  | fuel + 1, c :: rest =>
      if c = '<' then none
      else if c = '&' then
        if rest.take 4 = "amp;".data then
          (xmlDecodeFuel fuel (rest.drop 4)).map (fun cs => '&' :: cs)
        else if rest.take 3 = "lt;".data then
          (xmlDecodeFuel fuel (rest.drop 3)).map (fun cs => '<' :: cs)
        else if rest.take 3 = "gt;".data then
          (xmlDecodeFuel fuel (rest.drop 3)).map (fun cs => '>' :: cs)
        else if rest.take 5 = "quot;".data then
          (xmlDecodeFuel fuel (rest.drop 5)).map (fun cs => '"' :: cs)
        else if rest.take 5 = "apos;".data then
          (xmlDecodeFuel fuel (rest.drop 5)).map (fun cs => '\'' :: cs)
        else none
      else (xmlDecodeFuel fuel rest).map (fun cs => c :: cs)

/-- Entity decoding of a whole character-data run. -/
def xmlDecode (s : String) : Option String :=
  (xmlDecodeFuel s.data.length s.data).map (fun cs => String.mk cs)

/-- The element tree `parse_xml` yields for the rendered flat-category
markup: a `<c:strRef>` holding the reference formula and a `<c:strCache>`
with `ptCount = len(categories)` and one point per
`enumerate(self._categories)` entry, whose text is the entity decoding of
the raw label `_cat_pt_xml` embedded; `none` when some label is not
well-formed character data and the parse fails. -/
def parseCatElemFlat (categories : List String) : Option CatElemE := do
  let decoded ← categories.mapM xmlDecode
  return { multiLvlStrRef := none,
           strRef := some
             { f := some (categoriesRefSimple categories.length),
               cache := some { ptCount := some categories.length,
                               pts := decoded.enum } } }

/-- The element tree of `_SeriesData.val` for a Simple series: a
`<c:numRef>` holding the reference formula and a `<c:numCache>` tagged
`General` with `ptCount = len(self)` and one `(idx, enc value)` point per
`enumerate(self._values)` entry. -/
def renderValElemDense {V : Type} (enc : V → String) (series_idx : Nat)
    (values : List V) : ValElemE :=
  { numRef := some
      { f := some (valuesRefSimple series_idx values.length),
        cache := some
          { formatCode := some "General",
            ptCount := some values.length,
            pts := values.enum.map (fun p => (p.1, enc p.2)) } } }

/-- C2 counterexample: the claim predicts the reader returns every source
label unchanged.  The source label `&amp;` is embedded raw, so the parser
decodes it and the reader yields the label `&` instead; and the source
label `a&b` renders as character data that is not well-formed, so the
parse fails outright. -/
theorem c2_entity_label_breaks_roundtrip :
    (parseCatElemFlat ["&amp;"]).map CT_Cat.tuples_pts
        = some (.ok [[(0, "&")]])
    ∧ ("&" : String) ≠ "&amp;"
    ∧ parseCatElemFlat ["a&b"] = none := by
  refine ⟨rfl, by decide, rfl⟩

theorem xmlDecodeFuel_plain :
    ∀ (fuel : Nat) (cs : List Char), cs.length ≤ fuel →
      (∀ c ∈ cs, c ≠ '&' ∧ c ≠ '<') → xmlDecodeFuel fuel cs = some cs := by
  intro fuel
  induction fuel with
  | zero =>
      intro cs hlen _
      cases cs with
      | nil => rfl
      | cons c rest => simp at hlen
  | succ n ih =>
      intro cs hlen hplain
      cases cs with
      | nil => rfl
      | cons c rest =>
          have hc := hplain c (List.mem_cons_self c rest)
          simp only [xmlDecodeFuel]
          rw [if_neg hc.2, if_neg hc.1,
            ih rest (by simpa using Nat.le_of_succ_le_succ (by simpa using hlen))
              (fun d hd => hplain d (List.mem_cons_of_mem _ hd))]
          rfl

/-- A label containing neither `&` nor `<` decodes to itself. -/
theorem xmlDecode_plain (name : String)
    (h : ∀ c ∈ name.data, c ≠ '&' ∧ c ≠ '<') : xmlDecode name = some name := by
  unfold xmlDecode
  rw [xmlDecodeFuel_plain name.data.length name.data le_rfl h]
  rfl

/-- C2 (amended): for a data set with flat categories whose labels contain
neither an ampersand nor a less-than sign — the labels whose raw
interpolation stays well-formed and decodes to itself — and dense values,
reading the rendered markup yields category point tuples and value point
tuples equal to the source sequences, indexed 0..n-1 in order; the value
parse recovers each encoded value. -/
theorem roundtrip_flat_dense_plain_labels {V : Type} (enc : V → String)
    (dec : String → Option V) (hinv : ∀ v, dec (enc v) = some v)
    (categories : List String)
    (hplain : ∀ name ∈ categories, ∀ c ∈ name.data, c ≠ '&' ∧ c ≠ '<')
    (values : List V) (series_idx : Nat) :
    (parseCatElemFlat categories).map CT_Cat.tuples_pts
        = some (.ok [(List.range categories.length).zip categories])
    ∧ CT_Val.tuples_pts dec (renderValElemDense enc series_idx values)
        = .ok (((List.range values.length).zip values).map
            (fun p => (p.1, Sum.inl p.2))) := by
  constructor
  · have hmapM : categories.mapM xmlDecode = some categories := by
      clear hinv
      induction categories with
      | nil => rfl
      | cons name rest ih =>
          rw [List.mapM_cons,
            xmlDecode_plain name (hplain name (List.mem_cons_self name rest)),
            ih (fun m hm => hplain m (List.mem_cons_of_mem _ hm))]
          rfl
    unfold parseCatElemFlat
    rw [hmapM]
    show some (CT_Cat.tuples_pts
        { multiLvlStrRef := none,
          strRef := some
            { f := some (categoriesRefSimple categories.length),
              cache := some { ptCount := some categories.length,
                              pts := categories.enum } } }) = _
    unfold CT_Cat.tuples_pts CT_Cat.is_multilvl
    simp [oneAndOnlyOne, List.enum_eq_zip_range, Except.map]
  · have hcache : CT_Val.tuples_pts dec (renderValElemDense enc series_idx values)
        = .ok (CT_NumCache.tuple_pts dec
            { formatCode := some "General", ptCount := some values.length,
              pts := values.enum.map (fun p => (p.1, enc p.2)) }) := rfl
    rw [hcache]
    congr 1
    unfold CT_NumCache.tuple_pts
    rw [List.map_map, List.enum_eq_zip_range]
    refine List.map_congr_left ?_
    intro p _
    simp [Function.comp, hinv p.2]

/-- C2 witness: the amended round trip applied to a concrete two-category,
one-value data set with plain labels and a concrete encode/parse pair. -/
theorem roundtrip_flat_dense_plain_labels_witness :
    (parseCatElemFlat ["a", "b"]).map CT_Cat.tuples_pts
        = some (.ok [(List.range 2).zip ["a", "b"]])
    ∧ CT_Val.tuples_pts (fun s => if s = "1" then some true
          else if s = "0" then some false else none)
        (renderValElemDense (fun b => cond b "1" "0") 0 [true])
        = .ok (((List.range 1).zip [true]).map (fun p => (p.1, Sum.inl p.2))) :=
  roundtrip_flat_dense_plain_labels (fun b => cond b "1" "0")
    (fun s => if s = "1" then some true else if s = "0" then some false else none)
    (by intro v; cases v <;> rfl) ["a", "b"] (by decide) [true] 0

/-- C10: accessing the value points of a value element whose numeric
reference lacks its required cache child yields the structural-corruption
error; an empty but well-formed cache yields the empty point list, a
distinguishable result, and the same holds for the declared point count. -/
theorem missing_value_cache_is_structural_error {F : Type}
    (dec : String → Option F) (f : Option String) (fc : Option String)
    (pc : Nat) :
    CT_Val.tuples_pts dec ⟨some ⟨f, none⟩⟩ = .error .invalidXml
    ∧ CT_Val.tuples_pts dec ⟨some ⟨f, some ⟨fc, some pc, []⟩⟩⟩ = .ok []
    ∧ (Except.error .invalidXml : Except ReadErr (List (Nat × (F ⊕ String))))
        ≠ .ok []
    ∧ CT_Val.val_ptCount ⟨some ⟨f, none⟩⟩ = .error .invalidXml
    ∧ CT_Val.val_ptCount ⟨some ⟨f, some ⟨fc, some pc, []⟩⟩⟩ = .ok pc := by
  refine ⟨rfl, rfl, ?_, rfl, rfl⟩
  intro h
  cases h
